import Mathlib

/-!
Verification of the handwriting-to-text plugin's multi-page OCR pipeline.

Shallow embedding of the TypeScript sources:
  * `src/utils.ts`    — base64 encoding, image normalization (`normalizeImage`,
    `bitmapToJpeg`, `MAX_DIMENSION`);
  * `src/gemini.ts`   — request-part assembly of `GeminiClient.extractTextFromImages`;
  * `src/settings.ts` — the settings record and its defaults;
  * `src/ocr-modal.ts` — the modal's queue of `ImageItem`s, `swapImages`, the
    remove handler, `revokeAllUrls`/`onClose`, and `processAllImages`.

Bytes are modelled as `List Nat` (each entry a byte value).  The browser /
Electron environment (bitmap decoding, canvas availability, JPEG re-encoding,
native HEIC conversion, object-URL allocation) is modelled as an explicit
`Env` record of oracles, so that the plugin's control flow around those
primitives is captured exactly while the primitives themselves stay abstract.
-/

namespace HandwritingToText

/-! ## Embedding of `src/utils.ts` -/

/-- The base64 alphabet used by the platform `btoa` primitive (RFC 4648). -/
def base64Alphabet : List Char :=
  "ABCDEFGHIJKLMNOPQRSTUVWXYZabcdefghijklmnopqrstuvwxyz0123456789+/".data

/-- Digit lookup into the base64 alphabet. -/
def b64Char (n : Nat) : Char := base64Alphabet.getD n '?'

/-- Core of the platform `btoa` primitive: encode a byte list three bytes at a
time into four base64 digits, padding the final group with `=`.  This models
the browser's `btoa` applied to a binary string whose character codes are the
given bytes. -/
def btoaChars : List Nat → List Char
  | [] => []
  | [a] =>
      [b64Char (a / 4), b64Char ((a % 4) * 16), '=', '=']
  | [a, b] =>
      [b64Char (a / 4), b64Char ((a % 4) * 16 + b / 16), b64Char ((b % 16) * 4), '=']
  | a :: b :: c :: rest =>
      b64Char (a / 4) :: b64Char ((a % 4) * 16 + b / 16) ::
        b64Char ((b % 16) * 4 + c / 64) :: b64Char (c % 64) :: btoaChars rest

/-- The platform `btoa`: direct base64 encoding of a whole byte sequence. -/
def btoa (bytes : List Nat) : String := String.mk (btoaChars bytes)

/-- The chunking loop of `arrayBufferToBase64` (`src/utils.ts`): slice the
bytes into pieces of at most 8192 (`bytes.subarray(i, min(i + CHUNK, len))`
for `i = 0, 8192, 16384, ...`). -/
def chunksOf8192 : List Nat → List (List Nat)
  | [] => []
  | x :: xs => (x :: xs).take 8192 :: chunksOf8192 ((x :: xs).drop 8192)
termination_by l => l.length
decreasing_by
  simp [List.length_drop]
  omega

/-- `arrayBufferToBase64` (`src/utils.ts`): build a chunk string per 8192-byte
slice via `String.fromCharCode`, join the chunks, and `btoa` the result.
`String.fromCharCode` followed by `join` concatenates the byte sequences, so
the joined binary string carries exactly the concatenation of the slices. -/
def arrayBufferToBase64 (bytes : List Nat) : String :=
  btoa (chunksOf8192 bytes).flatten

/-- `WEB_SAFE_MIMES` (`src/utils.ts`): formats Chromium's `<img>` and
`createImageBitmap` handle natively. -/
def WEB_SAFE_MIMES : List String :=
  ["image/jpeg", "image/png", "image/gif", "image/webp"]

/-- `MAX_DIMENSION` (`src/utils.ts`). -/
def MAX_DIMENSION : Nat := 4096

/-- Oracles for the browser / Electron environment that `normalizeImage`
drives: `decodeBitmap` is `createImageBitmap` under `tryCreateBitmap`'s
catch-and-timeout wrapper (`none` = decode failure or timeout), returning the
bitmap's width and height; `ctxAvailable` says whether a 2d canvas context can
be obtained; `encode` is the canvas draw + JPEG export at given target
dimensions; `nativeConvert` is Electron's `nativeImage` HEIC-to-JPEG path
(`none` = not on Electron, empty image, or any exception); `mkUrl` is
`URL.createObjectURL`, indexed by how many URLs were created before. -/
structure Env where
  decodeBitmap : List Nat → String → Option (Nat × Nat)
  ctxAvailable : Bool
  encode : List Nat → Int → Int → List Nat
  nativeConvert : List Nat → Option (List Nat)
  mkUrl : Nat → String

/-- `bitmapToJpeg` (`src/utils.ts`): draw the bitmap onto a canvas of the
target size and export as JPEG; throws `"Could not get canvas context"` when
no 2d context is available. -/
def bitmapToJpeg (env : Env) (buffer : List Nat) (targetWidth targetHeight : Int) :
    Except String (List Nat × String) :=
  if env.ctxAvailable then
    Except.ok (env.encode buffer targetWidth targetHeight, "image/jpeg")
  else
    Except.error "Could not get canvas context"

/-- The target dimensions `normalizeImage` passes to `bitmapToJpeg`:
`scale = MAX_DIMENSION / max(width, height)` when the longest side exceeds
`MAX_DIMENSION`, else `1`, and each side is `Math.round(side * scale)`
(round half up, as `round` on `ℚ`). -/
def targetDims (width height : Nat) : Int × Int :=
  let needsResize : Bool := decide (MAX_DIMENSION < width) || decide (MAX_DIMENSION < height)
  let scale : ℚ := if needsResize then (MAX_DIMENSION : ℚ) / ((max width height : Nat) : ℚ) else 1
  (round ((width : ℚ) * scale), round ((height : ℚ) * scale))

/-- `normalizeImage` (`src/utils.ts`): try `createImageBitmap`; if it decodes,
return the input unchanged when it is web-safe and within bounds, otherwise
re-encode through the canvas at the (possibly downscaled) target dimensions;
if decoding fails and the format needs conversion, try Electron's
`nativeImage` and recurse on the converted JPEG; if everything fails, return
the original pair.  The `Except.error` case is the uncaught exception thrown
by `bitmapToJpeg` when no canvas context exists. -/
def normalizeImage (env : Env) (buffer : List Nat) (mimeType : String) :
    Except String (List Nat × String) :=
  match env.decodeBitmap buffer mimeType with
  | some (width, height) =>
      let needsResize : Bool := decide (MAX_DIMENSION < width) || decide (MAX_DIMENSION < height)
      if WEB_SAFE_MIMES.contains mimeType && !needsResize then
        Except.ok (buffer, mimeType)
      else
        bitmapToJpeg env buffer (targetDims width height).1 (targetDims width height).2
  | none =>
      if h : (!(WEB_SAFE_MIMES.contains mimeType)) = true then
        match env.nativeConvert buffer with
        | some converted => normalizeImage env converted "image/jpeg"
        | none => Except.ok (buffer, mimeType)
      else
        Except.ok (buffer, mimeType)
termination_by (if WEB_SAFE_MIMES.contains mimeType then 0 else 1)
decreasing_by
  simp [WEB_SAFE_MIMES] at h ⊢
  simp [h]

/-- The result of the modal's try/catch around `normalizeImage`
(`// Use raw buffer if normalization fails` in `ensureThumbnails` and
`processAllImages` of `src/ocr-modal.ts`): on success the normalized pair is
adopted, on an exception the raw buffer and declared type are kept. -/
def normalizeOrRaw (env : Env) (buffer : List Nat) (mimeType : String) :
    List Nat × String :=
  match normalizeImage env buffer mimeType with
  | Except.ok r => r
  | Except.error _ => (buffer, mimeType)

/-! ## Embedding of `src/settings.ts` -/

/-- `HandwritingToTextSettings` (`src/settings.ts`). -/
structure HandwritingToTextSettings where
  geminiApiKey : String
  model : String
  ocrPrompt : String
  pageSeparator : String
  showPageNumbers : Bool

/-- `DEFAULT_SETTINGS` (`src/settings.ts`). -/
def DEFAULT_SETTINGS : HandwritingToTextSettings where
  geminiApiKey := ""
  model := "gemini-2.5-flash"
  ocrPrompt :=
    "You are an expert at reading handwritten text. " ++
    "Transcribe the handwritten content in this image into clean, readable markdown text. " ++
    "Join words that continue on the next line into flowing sentences — do NOT insert line breaks just because the handwriting reaches the edge of the page. " ++
    "Only start a new paragraph when the writer clearly intended one (e.g. a blank line, large gap, or new topic). " ++
    "Format lists as markdown lists. " ++
    "If a word is illegible, write [illegible]. " ++
    "If the writing contains non-English text (such as Thai), transcribe it faithfully. " ++
    "Output only the transcribed text."
  pageSeparator := "---"
  showPageNumbers := true

/-! ## Embedding of `src/gemini.ts` -/

/-- `ImagePart` (`src/gemini.ts`). -/
structure ImagePart where
  base64 : String
  mimeType : String
deriving DecidableEq

/-- One entry of the `parts` array in the request body built by
`GeminiClient.extractTextFromImages`: either `{ text }` or
`{ inline_data: { mime_type, data } }`. -/
inductive Part where
  | text (s : String)
  | inlineData (mimeType : String) (data : String)
deriving DecidableEq

/-- The `parts` array assembled by `GeminiClient.extractTextFromImages`
(`src/gemini.ts`): the single text prompt part, then one `inline_data` part
per image, pushed in order. -/
def buildParts (prompt : String) (images : List ImagePart) : List Part :=
  Part.text prompt :: images.map (fun img => Part.inlineData img.mimeType img.base64)

/-! ## Embedding of `src/ocr-modal.ts` -/

/-- `ImageItem.status` (`src/ocr-modal.ts`). -/
inductive Status where
  | pending
  | processing
  | done
  | error
deriving DecidableEq

/-- `ImageItem` (`src/ocr-modal.ts`).  `thumbnailUrl` is the item's preview
object URL (the spec's preview handle); `none` models an absent field. -/
structure ImageItem where
  id : String
  buffer : List Nat
  mimeType : String
  filename : String
  status : Status
  extractedText : Option String := none
  errorMsg : Option String := none
  thumbnailUrl : Option String := none
deriving DecidableEq

/-- The surface the modal currently shows.  The code tracks
`this.state : "select" | "queue" | "processing" | "preview"` and renders the
error view through `renderError` without a dedicated state value; we model the
rendered surface, adding `errorScreen` (with its message) for `renderError` —
this is what the spec calls the `error` phase. -/
inductive ModalState where
  | select
  | queue
  | processing
  | preview
  | errorScreen (message : String)
deriving DecidableEq

/-- The mutable fields of `OcrModal` that the claims concern: the image queue,
the combined result text, the list of live (not yet revoked) object URLs, and
the rendered surface. -/
structure ModalSt where
  images : List ImageItem
  combinedText : String
  objectUrls : List String
  state : ModalState
deriving DecidableEq

/-- `revokeAllUrls` (`src/ocr-modal.ts`): revoke every tracked object URL and
clear each item's `thumbnailUrl`. -/
def revokeAllUrls (st : ModalSt) : ModalSt :=
  { st with
    objectUrls := []
    images := st.images.map (fun img => { img with thumbnailUrl := none }) }

/-- `onClose` (`src/ocr-modal.ts`): empty the content, revoke all URLs, drop
the queue. -/
def onClose (st : ModalSt) : ModalSt :=
  let st := revokeAllUrls st
  { st with images := [] }

/-- The remove button handler in `renderQueueList` (`src/ocr-modal.ts`):
`this.images.splice(i, 1)`, then re-render the selection screen if the queue
emptied, else the queue screen.  It does not touch `objectUrls` or revoke the
removed item's `thumbnailUrl`. -/
def removeImage (st : ModalSt) (i : Nat) : ModalSt :=
  let images := st.images.eraseIdx i
  { st with
    images := images
    state := if images.length = 0 then ModalState.select else ModalState.queue }

/-- `jsGet l i` models reading `l[i]` from a JavaScript array whose element
slots hold `Option`-wrapped items (`none` = `undefined`, as produced by holes
or out-of-range reads). -/
def jsGet {α : Type} (l : List (Option α)) (i : Nat) : Option α :=
  l.getD i none

/-- `jsSet l i v` models the JavaScript assignment `l[i] = v`: in range it
replaces the slot; past the end it extends the array with `undefined` slots up
to index `i` and stores `v` there. -/
def jsSet {α : Type} (l : List (Option α)) (i : Nat) (v : Option α) : List (Option α) :=
  if i < l.length then l.set i v else l ++ List.replicate (i - l.length) none ++ [v]

/-- `swapImages(a, b)` (`src/ocr-modal.ts`), with JavaScript array semantics:
`temp = images[a]; images[a] = images[b]; images[b] = temp` and no range
check.  A well-formed queue is `items.map some`. -/
def swapImages {α : Type} (l : List (Option α)) (a b : Nat) : List (Option α) :=
  let temp := jsGet l a
  let l1 := jsSet l a (jsGet l b)
  jsSet l1 b temp

/-- The multi-page instruction block appended to the base prompt in
`processAllImages` (`src/ocr-modal.ts`), with string literals split at the
boundaries of the interpolated values. -/
def multiPromptSuffix (sep : String) (showNums : Bool) (total : Nat) : String :=
  "\n\nYou are receiving " ++ toString total ++ " images" ++
  ". They are consecutive pages of the same document, in order (image 1 = page 1, image 2 = page 2, etc.)." ++
  " Transcribe each page. Between pages, insert a separator line." ++
  (if showNums then
    " Use this exact format for separators: \"" ++ sep ++ " Page N " ++ sep ++
      "\" where N is the page number."
  else
    " " ++ "Use this exact separator: \"" ++ sep ++ "\".") ++
  " " ++ "Do not add a separator before the first page."

/-- The prompt construction of `processAllImages` (`src/ocr-modal.ts`):
`prompt = ocrPrompt`, and when more than one page is queued the multi-page
instruction block is appended, with `sep = pageSeparator || "---"` (the empty
string is falsy) and `showNums = showPageNumbers !== false`. -/
def buildPrompt (ocrPrompt pageSeparator : String) (showPageNumbers : Bool)
    (total : Nat) : String :=
  if 1 < total then
    ocrPrompt ++
      multiPromptSuffix (if pageSeparator = "" then "---" else pageSeparator)
        showPageNumbers total
  else
    ocrPrompt

/-- The per-item preparation loop of `processAllImages` (`src/ocr-modal.ts`):
mark the item `processing`, adopt the normalized buffer and type (falling back
to the raw pair on an exception), and create an object URL for the thumbnail
when the item has none yet, threading the list of created URLs. -/
def prepareImages (env : Env) : List ImageItem → List String → List ImageItem × List String
  | [], urls => ([], urls)
  | item :: rest, urls =>
      let nr := normalizeOrRaw env item.buffer item.mimeType
      let item := { item with status := Status.processing, buffer := nr.1, mimeType := nr.2 }
      let (item, urls) :=
        match item.thumbnailUrl with
        | some _ => (item, urls)
        | none =>
            let url := env.mkUrl urls.length
            ({ item with thumbnailUrl := some url }, urls ++ [url])
      let (restOut, urlsOut) := prepareImages env rest urls
      (item :: restOut, urlsOut)

/-- The error message `processAllImages` shows when no API key is set. -/
def noApiKeyMessage : String :=
  "No API key configured. Please set your Gemini API key in the plugin settings."

/-- The outcome of one `processAllImages` run: the updated modal state,
whether `GeminiClient.extractTextFromImages` was invoked, and — when it was —
the `parts` array and prompt of the dispatched request. -/
structure ProcessResult where
  st : ModalSt
  clientInvoked : Bool
  sentParts : List Part
  sentPrompt : String
deriving DecidableEq

/-- `processAllImages` (`src/ocr-modal.ts`): return unchanged on an empty
queue; render the configuration error and stop when no API key is set;
otherwise prepare every item, build the image parts and the prompt, dispatch
the batch request (its outcome is the oracle `extractResult`, the result of
`GeminiClient.extractTextFromImages` — trimmed text, or the thrown error
message), and either mark all items `done` and store the combined text, or
mark all items `error` with the failure message and clear the text; both
outcomes end in `renderPreview`. -/
def processAllImages (settings : HandwritingToTextSettings) (env : Env)
    (extractResult : Except String String) (st : ModalSt) : ProcessResult :=
  if st.images.length = 0 then
    { st := st, clientInvoked := false, sentParts := [], sentPrompt := "" }
  else if settings.geminiApiKey = "" then
    { st := { st with state := ModalState.errorScreen noApiKeyMessage }
      clientInvoked := false, sentParts := [], sentPrompt := "" }
  else
    let total := st.images.length
    let prep := prepareImages env st.images st.objectUrls
    let imageParts := prep.1.map (fun item =>
      { base64 := arrayBufferToBase64 item.buffer, mimeType := item.mimeType : ImagePart })
    let prompt := buildPrompt settings.ocrPrompt settings.pageSeparator
      settings.showPageNumbers total
    let parts := buildParts prompt imageParts
    match extractResult with
    | Except.ok text =>
        { st := { st with
            images := prep.1.map (fun item => { item with status := Status.done })
            combinedText := text
            objectUrls := prep.2
            state := ModalState.preview }
          clientInvoked := true, sentParts := parts, sentPrompt := prompt }
    | Except.error msg =>
        { st := { st with
            images := prep.1.map (fun item =>
              { item with status := Status.error, errorMsg := some msg })
            combinedText := ""
            objectUrls := prep.2
            state := ModalState.preview }
          clientInvoked := true, sentParts := parts, sentPrompt := prompt }

/-- `containsStr s pat` states that `pat` occurs contiguously inside `s`. -/
def containsStr (s pat : String) : Prop :=
  ∃ pre post : String, s = pre ++ pat ++ post

/-- A concrete queued page used in concrete evaluations. -/
def sampleItem : ImageItem where
  id := "a1"
  buffer := [0]
  mimeType := "image/jpeg"
  filename := "p.jpg"
  status := Status.pending

/-- A concrete modal state with one queued page owning a live preview URL. -/
def sampleRemoveState : ModalSt where
  images := [{ sampleItem with thumbnailUrl := some "blob:thumb-0" }]
  combinedText := ""
  objectUrls := ["blob:thumb-0"]
  state := ModalState.queue

/-- A trivial concrete environment for concrete evaluations. -/
def trivialEnv : Env where
  decodeBitmap := fun _ _ => none
  ctxAvailable := true
  encode := fun b _ _ => b
  nativeConvert := fun _ => none
  mkUrl := fun n => "blob:" ++ toString n

/-- Concrete settings with an API key configured. -/
def sampleSettings : HandwritingToTextSettings :=
  { DEFAULT_SETTINGS with geminiApiKey := "k" }

/-- An environment where bitmap decoding succeeds but no 2d canvas context is
obtainable (`getContext` returns null). -/
def noCanvasEnv : Env where
  decodeBitmap := fun _ _ => some (1, 1)
  ctxAvailable := false
  encode := fun b _ _ => b
  nativeConvert := fun _ => none
  mkUrl := fun n => "blob:" ++ toString n

/-! ## Helper lemmas -/

theorem chunksOf8192_flatten (l : List Nat) : (chunksOf8192 l).flatten = l := by
  generalize hn : l.length = n
  induction n using Nat.strong_induction_on generalizing l with
  | _ n ih =>
    cases l with
    | nil => simp [chunksOf8192]
    | cons x xs =>
        rw [chunksOf8192]
        simp only [List.flatten_cons]
        rw [ih ((x :: xs).drop 8192).length ?_ _ rfl, List.take_append_drop]
        subst hn
        simp [List.length_drop]
        omega

theorem list_set_getD {α : Type} (l : List α) (i : Nat) (d : α) (h : i < l.length) :
    l.set i (l.getD i d) = l := by
  induction l generalizing i with
  | nil => simp at h
  | cons x xs ihl =>
      cases i with
      | zero => simp [List.getD]
      | succ j =>
          simp only [List.length_cons, Nat.add_lt_add_iff_right] at h
          simpa [List.getD] using ihl j h

theorem containsStr_intro (pre pat post s : String) (h : s = pre ++ (pat ++ post)) :
    containsStr s pat :=
  ⟨pre, post, by rw [h, String.append_assoc]⟩

theorem prepareImages_length (env : Env) (items : List ImageItem) (urls : List String) :
    (prepareImages env items urls).1.length = items.length := by
  induction items generalizing urls with
  | nil => rfl
  | cons it rest ihp =>
      cases hthumb : it.thumbnailUrl <;> simp [prepareImages, hthumb, ihp]

theorem prepareImages_get (env : Env) (items : List ImageItem) (urls : List String)
    (i : Nat) (item : ImageItem) (h : items[i]? = some item) :
    ∃ out, (prepareImages env items urls).1[i]? = some out ∧
      out.buffer = (normalizeOrRaw env item.buffer item.mimeType).1 ∧
      out.mimeType = (normalizeOrRaw env item.buffer item.mimeType).2 := by
  induction items generalizing urls i with
  | nil => simp at h
  | cons it rest ihp =>
      cases i with
      | zero =>
          simp only [List.getElem?_cons_zero, Option.some.injEq] at h
          subst h
          cases hthumb : it.thumbnailUrl <;>
            simp [prepareImages, hthumb]
      | succ j =>
          simp only [List.getElem?_cons_succ] at h
          cases hthumb : it.thumbnailUrl <;>
            simpa [prepareImages, hthumb] using ihp _ j h

/-! ## Claim theorems -/

/-- C10: processing the bytes in 8192-byte slices and concatenating before
encoding produces exactly the same string as directly base64-encoding the
whole byte sequence; the chunk boundaries never affect the output. -/
theorem arrayBufferToBase64_eq_btoa (bytes : List Nat) :
    arrayBufferToBase64 bytes = btoa bytes := by
  rw [arrayBufferToBase64, chunksOf8192_flatten]

/-- C8 counterexample: on the one-page queue `[sampleItem]`, the unguarded
JavaScript swap `move(1, 1)` — both indices out of range — does not leave the
queue unchanged: reading `images[1]` yields `undefined` and assigning it back
extends the array, so the claim that an out-of-range `move` is a no-op fails. -/
theorem swapImages_out_of_range_not_noop :
    swapImages [some sampleItem] 1 1 ≠ [some sampleItem] := by
  decide

/-- C8 (amended): `move(i, i)` with `i` in range leaves the queue unchanged;
out-of-range indices are not guarded (the swap then mutates the array, and the
UI only ever invokes it with in-range adjacent indices). -/
theorem swapImages_self {α : Type} (l : List (Option α)) (i : Nat)
    (h : i < l.length) : swapImages l i i = l := by
  simp only [swapImages, jsGet, jsSet]
  rw [if_pos h, list_set_getD l i none h, if_pos h, list_set_getD l i none h]

/-- C8 witness: the amended no-op property evaluated on a concrete in-range
index. -/
theorem swapImages_self_witness :
    0 < [some sampleItem].length ∧ swapImages [some sampleItem] 0 0 = [some sampleItem] :=
  ⟨by decide, swapImages_self [some sampleItem] 0 (by decide)⟩

/-- C9 counterexample: removing the only queued page (whose preview handle
`"blob:thumb-0"` is live) leaves that handle in the modal's live object-URL
list even though the item has left the queue — the remove handler never
revokes it, refuting release-at-removal. -/
theorem removeImage_keeps_url :
    (removeImage sampleRemoveState 0).images = [] ∧
      (removeImage sampleRemoveState 0).objectUrls = ["blob:thumb-0"] := by
  constructor <;> rfl

/-- C9 (amended): removing an item never revokes any object URL — the live
URL list is untouched by removal; every preview handle (including those of
previously removed items) is released only at session end, when `onClose`
revokes all URLs and drops the queue. -/
theorem removeImage_urls_released_at_close (st : ModalSt) (i : Nat) :
    (removeImage st i).objectUrls = st.objectUrls ∧
      (onClose st).objectUrls = [] ∧ (onClose st).images = [] := by
  refine ⟨rfl, rfl, rfl⟩

/-- C3: with a non-empty queue and no API key configured, `processAllImages`
renders the configuration error and returns before constructing the client:
the extraction adapter is never invoked, no request parts are built, and the
queue is left untouched. -/
theorem processAllImages_no_api_key (settings : HandwritingToTextSettings)
    (env : Env) (extractResult : Except String String) (st : ModalSt)
    (h1 : st.images.length ≠ 0) (h2 : settings.geminiApiKey = "") :
    processAllImages settings env extractResult st =
      { st := { st with state := ModalState.errorScreen noApiKeyMessage }
        clientInvoked := false, sentParts := [], sentPrompt := "" } := by
  rw [processAllImages, if_neg h1, if_pos h2]

/-- C3 witness: one page queued, default settings (empty API key). -/
theorem processAllImages_no_api_key_witness :
    sampleRemoveState.images.length ≠ 0 ∧ DEFAULT_SETTINGS.geminiApiKey = "" ∧
      processAllImages DEFAULT_SETTINGS trivialEnv (Except.ok "t") sampleRemoveState =
        { st := { sampleRemoveState with state := ModalState.errorScreen noApiKeyMessage }
          clientInvoked := false, sentParts := [], sentPrompt := "" } :=
  ⟨by decide, rfl,
    processAllImages_no_api_key DEFAULT_SETTINGS trivialEnv (Except.ok "t")
      sampleRemoveState (by decide) rfl⟩

/-- C5: with exactly one page queued (and an API key present so the request is
actually built), the prompt sent with the request is the base OCR prompt
unchanged — no separator instructions are appended. -/
theorem processAllImages_single_page_prompt (settings : HandwritingToTextSettings)
    (env : Env) (extractResult : Except String String) (st : ModalSt)
    (h1 : st.images.length = 1) (h2 : settings.geminiApiKey ≠ "") :
    (processAllImages settings env extractResult st).sentPrompt =
      settings.ocrPrompt := by
  rw [processAllImages, if_neg (by omega), if_neg h2]
  cases extractResult <;> simp [buildPrompt, h1]

/-- C5 witness: a concrete one-page queue. -/
theorem processAllImages_single_page_prompt_witness :
    sampleRemoveState.images.length = 1 ∧ sampleSettings.geminiApiKey ≠ "" ∧
      (processAllImages sampleSettings trivialEnv (Except.ok "t")
        sampleRemoveState).sentPrompt = sampleSettings.ocrPrompt :=
  ⟨rfl, by decide,
    processAllImages_single_page_prompt sampleSettings trivialEnv (Except.ok "t")
      sampleRemoveState rfl (by decide)⟩

/-- C7: when the batch extraction request fails, every page of the batch is
uniformly marked `error` carrying the failure message — no page is left in a
different status — and the combined result text is cleared to empty. -/
theorem processAllImages_failure_marks_all (settings : HandwritingToTextSettings)
    (env : Env) (st : ModalSt) (msg : String)
    (h1 : st.images.length ≠ 0) (h2 : settings.geminiApiKey ≠ "") :
    (processAllImages settings env (Except.error msg) st).st.combinedText = "" ∧
      (processAllImages settings env (Except.error msg) st).st.images.length =
        st.images.length ∧
      ∀ item ∈ (processAllImages settings env (Except.error msg) st).st.images,
        item.status = Status.error ∧ item.errorMsg = some msg := by
  rw [processAllImages, if_neg h1, if_neg h2]
  refine ⟨rfl, by simp [prepareImages_length], ?_⟩
  intro item hitem
  simp only [List.mem_map] at hitem
  obtain ⟨x, _, hx⟩ := hitem
  subst hx
  exact ⟨rfl, rfl⟩

/-- C7 witness: a concrete one-page batch with a failing request. -/
theorem processAllImages_failure_marks_all_witness :
    sampleRemoveState.images.length ≠ 0 ∧ sampleSettings.geminiApiKey ≠ "" ∧
      (processAllImages sampleSettings trivialEnv (Except.error "boom")
        sampleRemoveState).st.combinedText = "" :=
  ⟨by decide, by decide,
    (processAllImages_failure_marks_all sampleSettings trivialEnv
      sampleRemoveState "boom" (by decide) (by decide)).1⟩

/-- C1: whenever the batch request is dispatched (non-empty queue, key
present), its `parts` array holds the single text prompt part first, followed
by exactly one `inline_data` part per queued page — base64-encoded (possibly
normalized) bytes plus format — in queue order. -/
theorem processAllImages_parts (settings : HandwritingToTextSettings)
    (env : Env) (extractResult : Except String String) (st : ModalSt)
    (h1 : 1 ≤ st.images.length) (h2 : settings.geminiApiKey ≠ "") :
    (processAllImages settings env extractResult st).sentParts.length =
        st.images.length + 1 ∧
      (processAllImages settings env extractResult st).sentParts.head? =
        some (Part.text (processAllImages settings env extractResult st).sentPrompt) ∧
      ∀ i, i < st.images.length →
        ∃ item, st.images[i]? = some item ∧
          (processAllImages settings env extractResult st).sentParts[i + 1]? =
            some (Part.inlineData (normalizeOrRaw env item.buffer item.mimeType).2
              (arrayBufferToBase64 (normalizeOrRaw env item.buffer item.mimeType).1)) := by
  rw [processAllImages, if_neg (by omega), if_neg h2]
  cases extractResult <;>
  · refine ⟨by simp [buildParts, prepareImages_length], rfl, ?_⟩
    intro i hi
    refine ⟨st.images[i], List.getElem?_eq_getElem hi, ?_⟩
    obtain ⟨out, hout, hbuf, hmime⟩ :=
      prepareImages_get env st.images st.objectUrls i st.images[i]
        (List.getElem?_eq_getElem hi)
    simp [buildParts, hout, hbuf, hmime]

/-- C1 witness: the part count on a concrete one-page queue. -/
theorem processAllImages_parts_witness :
    1 ≤ sampleRemoveState.images.length ∧
      (processAllImages sampleSettings trivialEnv (Except.ok "t")
        sampleRemoveState).sentParts.length = sampleRemoveState.images.length + 1 :=
  ⟨by decide,
    (processAllImages_parts sampleSettings trivialEnv (Except.ok "t")
      sampleRemoveState (by decide) (by decide)).1⟩

/-- C4: for two or more pages, the final prompt is the base prompt with an
appended instruction block that states the number of images; when page
numbering is enabled it contains the literal separator pattern
`<sep> Page N <sep>` (described in the instruction as "where N is the page
number", pages being numbered from 1); when numbering is disabled it contains
the bare separator token alone (`pageSeparator`, defaulting to `"---"` when
empty); and it explicitly forbids a separator before the first page. -/
theorem buildPrompt_multi_spec (base sepSetting : String) (showNums : Bool)
    (total : Nat) (h : 2 ≤ total) :
    (∃ suffix, buildPrompt base sepSetting showNums total = base ++ suffix) ∧
      containsStr (buildPrompt base sepSetting showNums total)
        (toString total ++ " images") ∧
      (showNums = true →
        containsStr (buildPrompt base sepSetting showNums total)
          ((if sepSetting = "" then "---" else sepSetting) ++ " Page N " ++
            (if sepSetting = "" then "---" else sepSetting))) ∧
      (showNums = false →
        containsStr (buildPrompt base sepSetting showNums total)
          ("Use this exact separator: \"" ++
            (if sepSetting = "" then "---" else sepSetting) ++ "\".")) ∧
      containsStr (buildPrompt base sepSetting showNums total)
        "Do not add a separator before the first page." := by
  rw [buildPrompt, if_pos (by omega : 1 < total)]
  generalize (if sepSetting = "" then "---" else sepSetting) = sep
  refine ⟨⟨_, rfl⟩, ?_, ?_, ?_, ?_⟩
  · exact containsStr_intro (base ++ "\n\nYou are receiving ") _
      (". They are consecutive pages of the same document, in order (image 1 = page 1, image 2 = page 2, etc.)." ++
        " Transcribe each page. Between pages, insert a separator line." ++
        (if showNums then
          " Use this exact format for separators: \"" ++ sep ++ " Page N " ++ sep ++
            "\" where N is the page number."
        else
          " " ++ "Use this exact separator: \"" ++ sep ++ "\".") ++
        " " ++ "Do not add a separator before the first page.") _
      (by simp only [multiPromptSuffix, eq_self_iff_true, if_true, Bool.false_eq_true, if_false, String.append_empty, String.append_assoc])
  · intro hn
    subst hn
    exact containsStr_intro
      (base ++ "\n\nYou are receiving " ++ toString total ++ " images" ++
        ". They are consecutive pages of the same document, in order (image 1 = page 1, image 2 = page 2, etc.)." ++
        " Transcribe each page. Between pages, insert a separator line." ++
        " Use this exact format for separators: \"") _
      ("\" where N is the page number." ++ " " ++
        "Do not add a separator before the first page.") _
      (by simp only [multiPromptSuffix, eq_self_iff_true, if_true, Bool.false_eq_true, if_false, String.append_empty, String.append_assoc])
  · intro hn
    subst hn
    exact containsStr_intro
      (base ++ "\n\nYou are receiving " ++ toString total ++ " images" ++
        ". They are consecutive pages of the same document, in order (image 1 = page 1, image 2 = page 2, etc.)." ++
        " Transcribe each page. Between pages, insert a separator line." ++ " ") _
      (" " ++ "Do not add a separator before the first page.") _
      (by simp only [multiPromptSuffix, eq_self_iff_true, if_true, Bool.false_eq_true, if_false, String.append_empty, String.append_assoc])
  · exact containsStr_intro
      (base ++ "\n\nYou are receiving " ++ toString total ++ " images" ++
        ". They are consecutive pages of the same document, in order (image 1 = page 1, image 2 = page 2, etc.)." ++
        " Transcribe each page. Between pages, insert a separator line." ++
        (if showNums then
          " Use this exact format for separators: \"" ++ sep ++ " Page N " ++ sep ++
            "\" where N is the page number."
        else
          " " ++ "Use this exact separator: \"" ++ sep ++ "\".") ++ " ") _
      "" _
      (by simp only [multiPromptSuffix, eq_self_iff_true, if_true, Bool.false_eq_true, if_false, String.append_empty, String.append_assoc])

/-- C4 witness: the no-separator-before-first-page instruction on a concrete
two-page prompt with the default (empty-string-falls-back) separator. -/
theorem buildPrompt_multi_spec_witness :
    2 ≤ 2 ∧ containsStr (buildPrompt "B" "" true 2)
      "Do not add a separator before the first page." :=
  ⟨by decide, (buildPrompt_multi_spec "B" "" true 2 (by decide)).2.2.2.2⟩

theorem round_mono_rat {x y : ℚ} (h : x ≤ y) : round x ≤ round y := by
  rw [round_eq, round_eq]
  exact Int.floor_le_floor (by linarith)

/-- C6: when a decoded image's longest side exceeds `MAX_DIMENSION`, the
target dimensions handed to the JPEG re-encode are each side scaled by the
uniform factor `MAX_DIMENSION / max(width, height)` and rounded to the
nearest integer; the longest target side is exactly `MAX_DIMENSION`, and the
aspect ratio is preserved within rounding error (the cross products of the
target and source dimensions differ by at most half the sum of the sides). -/
theorem targetDims_resize_spec (w h : Nat) (hw : 0 < w) (hh : 0 < h)
    (hbig : MAX_DIMENSION < max w h) :
    max (targetDims w h).1 (targetDims w h).2 = (MAX_DIMENSION : Int) ∧
      (targetDims w h).1 =
        round ((w : ℚ) * ((MAX_DIMENSION : ℚ) / ((max w h : Nat) : ℚ))) ∧
      (targetDims w h).2 =
        round ((h : ℚ) * ((MAX_DIMENSION : ℚ) / ((max w h : Nat) : ℚ))) ∧
      |((targetDims w h).1 : ℚ) * (h : ℚ) - ((targetDims w h).2 : ℚ) * (w : ℚ)| ≤
        ((w : ℚ) + (h : ℚ)) / 2 := by
  have hcond : (decide (MAX_DIMENSION < w) || decide (MAX_DIMENSION < h)) = true := by
    rw [Bool.or_eq_true, decide_eq_true_iff, decide_eq_true_iff]
    exact lt_max_iff.mp hbig
  have hdims : targetDims w h =
      (round ((w : ℚ) * ((MAX_DIMENSION : ℚ) / ((max w h : Nat) : ℚ))),
        round ((h : ℚ) * ((MAX_DIMENSION : ℚ) / ((max w h : Nat) : ℚ)))) := by
    rw [targetDims]
    simp only [hcond, if_true]
  set s : ℚ := (MAX_DIMENSION : ℚ) / ((max w h : Nat) : ℚ) with hs
  have hmaxpos : (0 : ℚ) < ((max w h : Nat) : ℚ) := by
    have : 0 < max w h := lt_of_lt_of_le hw (le_max_left w h)
    exact_mod_cast this
  have hspos : 0 < s := by
    rw [hs]
    apply div_pos _ hmaxpos
    norm_num [MAX_DIMENSION]
  have hwle : (w : ℚ) ≤ ((max w h : Nat) : ℚ) := by exact_mod_cast le_max_left w h
  have hhle : (h : ℚ) ≤ ((max w h : Nat) : ℚ) := by exact_mod_cast le_max_right w h
  have hmaxmul : ((max w h : Nat) : ℚ) * s = (MAX_DIMENSION : ℚ) := by
    rw [hs, mul_comm, div_mul_cancel₀ _ (ne_of_gt hmaxpos)]
  have hround_max : round (((max w h : Nat) : ℚ) * s) = (MAX_DIMENSION : Int) := by
    rw [hmaxmul]
    exact_mod_cast round_natCast MAX_DIMENSION
  have hwbound : round ((w : ℚ) * s) ≤ (MAX_DIMENSION : Int) := by
    calc round ((w : ℚ) * s) ≤ round (((max w h : Nat) : ℚ) * s) :=
          round_mono_rat (by nlinarith)
      _ = (MAX_DIMENSION : Int) := hround_max
  have hhbound : round ((h : ℚ) * s) ≤ (MAX_DIMENSION : Int) := by
    calc round ((h : ℚ) * s) ≤ round (((max w h : Nat) : ℚ) * s) :=
          round_mono_rat (by nlinarith)
      _ = (MAX_DIMENSION : Int) := hround_max
  have hmaxeq : max (round ((w : ℚ) * s)) (round ((h : ℚ) * s)) = (MAX_DIMENSION : Int) := by
    rcases max_cases w h with ⟨hixw, _⟩ | ⟨hixh, _⟩
    · have : round ((w : ℚ) * s) = (MAX_DIMENSION : Int) := by
        rw [show ((w : ℚ)) = ((max w h : Nat) : ℚ) by exact_mod_cast congrArg Nat.cast hixw.symm]
        exact hround_max
      rw [max_eq_left (this ▸ hhbound), this]
    · have : round ((h : ℚ) * s) = (MAX_DIMENSION : Int) := by
        rw [show ((h : ℚ)) = ((max w h : Nat) : ℚ) by exact_mod_cast congrArg Nat.cast hixh.symm]
        exact hround_max
      rw [max_eq_right (this ▸ hwbound), this]
  refine ⟨by rw [hdims]; exact hmaxeq, by rw [hdims], by rw [hdims], ?_⟩
  rw [hdims]
  have he1 : |(round ((w : ℚ) * s) : ℚ) - (w : ℚ) * s| ≤ 1 / 2 := by
    rw [abs_sub_comm]
    exact abs_sub_round ((w : ℚ) * s)
  have he2 : |(round ((h : ℚ) * s) : ℚ) - (h : ℚ) * s| ≤ 1 / 2 := by
    rw [abs_sub_comm]
    exact abs_sub_round ((h : ℚ) * s)
  have hid : (round ((w : ℚ) * s) : ℚ) * (h : ℚ) - (round ((h : ℚ) * s) : ℚ) * (w : ℚ) =
      ((round ((w : ℚ) * s) : ℚ) - (w : ℚ) * s) * (h : ℚ) -
        ((round ((h : ℚ) * s) : ℚ) - (h : ℚ) * s) * (w : ℚ) := by
    ring
  rw [hid]
  have hhn : (0 : ℚ) ≤ (h : ℚ) := by positivity
  have hwn : (0 : ℚ) ≤ (w : ℚ) := by positivity
  calc |((round ((w : ℚ) * s) : ℚ) - (w : ℚ) * s) * (h : ℚ) -
        ((round ((h : ℚ) * s) : ℚ) - (h : ℚ) * s) * (w : ℚ)|
      ≤ |((round ((w : ℚ) * s) : ℚ) - (w : ℚ) * s) * (h : ℚ)| +
        |((round ((h : ℚ) * s) : ℚ) - (h : ℚ) * s) * (w : ℚ)| := abs_sub _ _
    _ = |(round ((w : ℚ) * s) : ℚ) - (w : ℚ) * s| * (h : ℚ) +
        |(round ((h : ℚ) * s) : ℚ) - (h : ℚ) * s| * (w : ℚ) := by
          rw [abs_mul, abs_mul, abs_of_nonneg hhn, abs_of_nonneg hwn]
    _ ≤ (1 / 2) * (h : ℚ) + (1 / 2) * (w : ℚ) := by
          gcongr
    _ = ((w : ℚ) + (h : ℚ)) / 2 := by ring

/-- C6 witness: a 8192 by 4096 image downscales to longest target side
exactly 4096. -/
theorem targetDims_resize_spec_witness :
    0 < 8192 ∧ 0 < 4096 ∧ MAX_DIMENSION < max 8192 4096 ∧
      max (targetDims 8192 4096).1 (targetDims 8192 4096).2 = (MAX_DIMENSION : Int) :=
  ⟨by decide, by decide, by decide,
    (targetDims_resize_spec 8192 4096 (by decide) (by decide) (by decide)).1⟩

/-- C2 counterexample: on a HEIC input whose bitmap decodes but whose canvas
context is unavailable, `normalizeImage` does not return the original pair —
it propagates the `"Could not get canvas context"` exception thrown inside
`bitmapToJpeg` (which is why its callers wrap it in try/catch), refuting
"normalize never fails". -/
theorem normalizeImage_throws_without_ctx :
    normalizeImage noCanvasEnv [0] "image/heic" =
      Except.error "Could not get canvas context" := by
  rw [normalizeImage.eq_def]
  simp [noCanvasEnv, bitmapToJpeg, WEB_SAFE_MIMES, MAX_DIMENSION]

theorem normalizeImage_websafe_ctx_ok (env : Env) (hctx : env.ctxAvailable = true)
    (b : List Nat) : ∃ out, normalizeImage env b "image/jpeg" = Except.ok out := by
  rw [normalizeImage.eq_def]
  cases hdec : env.decodeBitmap b "image/jpeg" with
  | none => simp [hdec, WEB_SAFE_MIMES]
  | some wh =>
      obtain ⟨w, ht⟩ := wh
      simp only [hdec]
      split
      · exact ⟨_, rfl⟩
      · exact ⟨(env.encode b (targetDims w ht).1 (targetDims w ht).2, "image/jpeg"),
          by simp [bitmapToJpeg, hctx]⟩

theorem normalizeImage_ctx_ok (env : Env) (hctx : env.ctxAvailable = true)
    (b : List Nat) (m : String) : ∃ out, normalizeImage env b m = Except.ok out := by
  rw [normalizeImage.eq_def]
  cases hdec : env.decodeBitmap b m with
  | some wh =>
      obtain ⟨w, ht⟩ := wh
      simp only [hdec]
      split
      · exact ⟨_, rfl⟩
      · exact ⟨(env.encode b (targetDims w ht).1 (targetDims w ht).2, "image/jpeg"),
          by simp [bitmapToJpeg, hctx]⟩
  | none =>
      simp only [hdec]
      by_cases hcv : (!(WEB_SAFE_MIMES.contains m)) = true
      · rw [dif_pos hcv]
        cases hnc : env.nativeConvert b with
        | some converted => exact normalizeImage_websafe_ctx_ok env hctx converted
        | none => exact ⟨_, rfl⟩
      · rw [dif_neg hcv]
        exact ⟨_, rfl⟩

theorem normalizeImage_fallback (env : Env) (b : List Nat) (m : String)
    (hdec : env.decodeBitmap b m = none) (hnc : env.nativeConvert b = none) :
    normalizeImage env b m = Except.ok (b, m) := by
  rw [normalizeImage.eq_def]
  simp only [hdec]
  by_cases hcv : (!(WEB_SAFE_MIMES.contains m)) = true
  · rw [dif_pos hcv, hnc]
  · rw [dif_neg hcv]

/-- C2 (amended): `normalizeImage` always returns a pair whenever a 2d canvas
context is obtainable, and whenever the decode and native-conversion steps
both fail it returns the original `(bytes, declaredFormat)` unchanged; the
sole failure mode is the canvas-context exception exhibited by the
counterexample (its callers catch it and fall back to the raw buffer). -/
theorem normalizeImage_amended (env : Env) (buffer : List Nat) (mimeType : String) :
    (env.ctxAvailable = true → ∃ out, normalizeImage env buffer mimeType = Except.ok out) ∧
      (env.decodeBitmap buffer mimeType = none → env.nativeConvert buffer = none →
        normalizeImage env buffer mimeType = Except.ok (buffer, mimeType)) :=
  ⟨fun hctx => normalizeImage_ctx_ok env hctx buffer mimeType,
   fun hdec hnc => normalizeImage_fallback env buffer mimeType hdec hnc⟩

/-- C2 witness: in the trivial environment every conversion path fails and a
PNG input degrades to the original pair. -/
theorem normalizeImage_amended_witness :
    normalizeImage trivialEnv [0] "image/png" = Except.ok ([0], "image/png") :=
  (normalizeImage_amended trivialEnv [0] "image/png").2 rfl rfl

end HandwritingToText
